import Mathlib

/-!
Shallow embedding of the `env_perm` crate (src/lib.rs): a library that
locates a shell profile file under the home directory and appends
`export NAME=VALUE` lines to it.

Modelling conventions:
* Strings are Lean `String`s; file contents are `String`s and a write
  appends to the content (the handle is opened in append mode).
* The process state visible to the library is a `World`: the value of the
  `SHELL` environment variable, the process environment consulted by
  `check_or_set`, the home-directory status flags checked by `get_profile`,
  and the file system under the home directory.
* The file system `Fs` is an association list from file name to content,
  together with two failure oracles: `openFail` lists present names whose
  append-mode open fails (for example, the name is a directory, or the file
  mode forbids writing), `writeFail` lists names on which a write through an
  open handle fails (for example, disk full).  A write either fails with the
  file unchanged or appends whole; `File::flush` on a Rust `std::fs::File`
  is a no-op that always succeeds and is modelled as such.
* Rust `panic!`/`expect` failures are modelled by the `Outcome.panic`
  constructor, distinct from the `io::Result` error channel `Outcome.err`.
* Every operation also returns the ordered trace of the observable steps it
  performed (`List Event`), used to state ordering and no-side-effect
  properties.
* The `phf_map!` catalog: a `phf::Map` stores its entries in hash-table
  slot order, and `Map::entries()` iterates in that stored order, not in
  macro declaration order.  For the key set "profile"/"login"/"shellrc"
  under the fixed generator seed of the `phf` crate, the computed slot
  order is login, profile, shellrc; the catalog lists below use that
  iteration order.
-/

namespace EnvPerm

/-- The `ShellBin` enum of src/lib.rs. -/
inductive ShellBin where
  | zsh
  | bash
  | notSupported
deriving DecidableEq, Repr, BEq

instance {ε α : Type} [DecidableEq ε] [DecidableEq α] : DecidableEq (Except ε α) := fun a b =>
  match a, b with
  | .ok x, .ok y => if h : x = y then .isTrue (by rw [h]) else .isFalse (by simp [h])
  | .ok _, .error _ => .isFalse (by simp)
  | .error _, .ok _ => .isFalse (by simp)
  | .error x, .error y => if h : x = y then .isTrue (by rw [h]) else .isFalse (by simp [h])

/-- `s.to_uppercase()` on the shell names this library compares: ASCII
character-wise uppercasing (on ASCII input, Rust `to_uppercase` is exactly
character-wise `Char::to_uppercase`, which is `Char.toUpper`). -/
def asciiUpper (s : String) : String :=
  ⟨s.data.map Char.toUpper⟩

/-- `impl FromStr for ShellBin`: uppercase the input and match it against
"ZSH" and "BASH"; anything else is `Err(NotSupported)`. -/
def ShellBin.fromStr (s : String) : Except ShellBin ShellBin :=
  let u := asciiUpper s
  if u = "ZSH" then .ok .zsh
  else if u = "BASH" then .ok .bash
  else .error .notSupported

/-- The `ShellProfile` struct: a shell kind together with the phf map of
role key to file name, listed in the iteration order of `entries()`. -/
structure ShellProfile where
  shell_bin : ShellBin
  shell_cfg_files : List (String × String)
deriving DecidableEq, Repr

/-- The zsh entry of the static `SHELL` catalog. -/
def zshProfile : ShellProfile :=
  ⟨.zsh, [("login", ".zlogin"), ("profile", ".zprofile"), ("shellrc", ".zshrc")]⟩

/-- The bash entry of the static `SHELL` catalog. -/
def bashProfile : ShellProfile :=
  ⟨.bash, [("login", ".bash_login"), ("profile", ".bash_profile"), ("shellrc", ".bashrc")]⟩

/-- The static `SHELL: [ShellProfile; 2]` catalog. -/
def SHELL : List ShellProfile := [zshProfile, bashProfile]

/-- Kinds of `std::io::Error` produced by the library. -/
inductive ErrKind where
  | notFound
  | invalidInput
  | permissionDenied
  | other
deriving DecidableEq, Repr

/-- An `std::io::Error`: a kind plus the human-readable message. -/
structure IoError where
  kind : ErrKind
  msg : String
deriving DecidableEq, Repr

/-- Result of running a fallible, possibly panicking computation. -/
inductive Outcome (α : Type) where
  | ok (a : α)
  | err (e : IoError)
  | panic (msg : String)
deriving DecidableEq, Repr

/-- Observable steps an operation performs, in order. -/
inductive Event where
  | readVar (name : String)
  | readShellVar
  | resolveHome
  | coercePath
  | parseShellPath
  | checkMetadata
  | checkWritable
  | matchShellKind
  | openAttempt (name : String)
  | created (name : String)
  | wrote (name : String) (data : String)
deriving DecidableEq, Repr

/-- The file system under the home directory. -/
structure Fs where
  files : List (String × String)
  openFail : List String
  writeFail : List String
deriving DecidableEq, Repr

/-- First-match association-list lookup (the content of a present file). -/
def assocFind : List (String × String) → String → Option String
  | [], _ => none
  | (k, v) :: rest, n => if k = n then some v else assocFind rest n

/-- Replace the binding of `n` (appending it if absent). -/
def assocSet : List (String × String) → String → String → List (String × String)
  | [], n, c => [(n, c)]
  | (k, v) :: rest, n, c => if k = n then (n, c) :: rest else (k, v) :: assocSet rest n c

/-- Content of file `name`, or `none` when no such file exists. -/
def Fs.content (fs : Fs) (name : String) : Option String :=
  assocFind fs.files name

/-- `OpenOptions::new().append(true).create(create).open(home/name)`:
on success returns the updated file system and whether the file was
created.  A present file opens unless its open is doomed (`openFail`);
an absent file opens (as a fresh empty file) only when `create` is set. -/
def openAppend (fs : Fs) (create : Bool) (name : String) : Option (Fs × Bool) :=
  match assocFind fs.files name with
  | some _ => if name ∈ fs.openFail then none else some (fs, false)
  | none =>
    if create then some (⟨fs.files ++ [(name, "")], fs.openFail, fs.writeFail⟩, true)
    else none

/-- A write through the append-mode handle `name`: appends `data` to the
content, or fails leaving the file unchanged. -/
def Fs.write (fs : Fs) (name data : String) : Except IoError Fs :=
  if name ∈ fs.writeFail then .error ⟨.other, "write failed"⟩
  else
    match assocFind fs.files name with
    | some c => .ok ⟨assocSet fs.files name (c ++ data), fs.openFail, fs.writeFail⟩
    | none => .error ⟨.other, "stale handle"⟩

/-- The candidate loop of `find_profile`: walk the catalog entries; a
candidate with an empty file name is skipped; reaching the "profile" key
sets `create(true)` on the shared `OpenOptions`, and that flag is never
reset, so it stays set for every later candidate; on the first successful
open return that file, else fall through to the
`No shell profiles were found` error. -/
def tryCandidates (fs : Fs) (create : Bool) :
    List (String × String) → Outcome String × Fs × List Event
  | [] => (.err ⟨.notFound, "No shell profiles were found"⟩, fs, [])
  | (k, v) :: rest =>
    if v.isEmpty then tryCandidates fs create rest
    else
      match openAppend fs (create || (k == "profile")) v with
      | some (fs', madeNew) =>
        (.ok v, fs', [.openAttempt v] ++ (if madeNew then [.created v] else []))
      | none =>
        match tryCandidates fs (create || (k == "profile")) rest with
        | (o, fs', tr) => (o, fs', .openAttempt v :: tr)

/-- `find_profile(profile, shell_bin)`.  The closure passed to
`SHELL.iter().find` evaluates `ShellBin::from_str(shell_bin).expect(..)`,
so an unrecognized shell name panics (the catalog is non-empty, hence the
closure runs).  On a recognized shell the matching catalog entry always
exists; the trailing `NotFound` error is kept for fidelity. -/
def find_profile (fs : Fs) (shell_bin : String) : Outcome String × Fs × List Event :=
  match ShellBin.fromStr shell_bin with
  | .error _ =>
    (.panic "Unable to match shell_bin with a supported ShellType", fs, [.matchShellKind])
  | .ok sb =>
    match SHELL.find? (fun sp => sp.shell_bin == sb) with
    | some sp =>
      match tryCandidates fs false sp.shell_cfg_files with
      | (o, fs', tr) => (o, fs', .matchShellKind :: tr)
    | none => (.err ⟨.notFound, "No shell profiles were found"⟩, fs, [.matchShellKind])

/-- `shell_bin.split('/').last()`: Rust `split('/')` always yields at least
one (possibly empty) item, so the `.expect` on it never fires; its last
item is exactly the suffix of the string after the final `/` (the whole
string when it has no `/`), computed here directly on the character list. -/
def lastSegment (s : String) : String :=
  ⟨(s.data.reverse.takeWhile (fun c => c ≠ '/')).reverse⟩

/-- Status flags of the home directory as probed by `get_profile`. -/
structure HomeDir where
  found : Bool
  pathValid : Bool
  metadataOk : Bool
  readonly : Bool
deriving DecidableEq, Repr

/-- The process state an operation runs against. -/
structure World where
  shellVar : Option String
  env : List (String × String)
  home : HomeDir
  fs : Fs
deriving DecidableEq, Repr

/-- `get_profile()`: read `SHELL` (panicking when absent), resolve the home
directory, coerce it to a path string, take the final path segment of the
shell identifier, check home metadata, check home writability (the
`readonly` permission flag), and only then run `find_profile`.  Returns the
selected file name (the open append-mode handle). -/
def get_profile (w : World) : Outcome String × Fs × List Event :=
  match w.shellVar with
  | none => (.panic "SHELL environment variable was not found", w.fs, [.readShellVar])
  | some shellBin =>
    if w.home.found = false then
      (.err ⟨.notFound, "No home directory"⟩, w.fs, [.readShellVar, .resolveHome])
    else if w.home.pathValid = false then
      (.err ⟨.invalidInput, "Failed to coerce Home directory as a valid Path"⟩, w.fs,
        [.readShellVar, .resolveHome, .coercePath])
    else
      let parsed := lastSegment shellBin
      if w.home.metadataOk = false then
        (.err ⟨.invalidInput, "Path to profile was invalid, or was not found"⟩, w.fs,
          [.readShellVar, .resolveHome, .coercePath, .parseShellPath, .checkMetadata])
      else if w.home.readonly = true then
        (.err ⟨.permissionDenied, "Unable to write to home directory, cannot export env var"⟩,
          w.fs,
          [.readShellVar, .resolveHome, .coercePath, .parseShellPath, .checkMetadata,
            .checkWritable])
      else
        match find_profile w.fs parsed with
        | (o, fs', tr) =>
          (o, fs',
            [.readShellVar, .resolveHome, .coercePath, .parseShellPath, .checkMetadata,
              .checkWritable] ++ tr)

/-- The line written by `set`: `writeln!(profile, "\nexport {}={}", var, value)`. -/
def setLine (var value : String) : String :=
  "\nexport " ++ var ++ "=" ++ value ++ "\n"

/-- The line written by `append`:
`writeln!(profile, "\nexport {}=\"{}:${}\"", var, value, var)`. -/
def appendLine (var value : String) : String :=
  "\nexport " ++ var ++ "=\"" ++ value ++ ":$" ++ var ++ "\"\n"

/-- `set(var, value)`: acquire the profile handle, write the `setLine`,
flush (always succeeds on a `File`), and return `Ok(())`. -/
def set (w : World) (var value : String) : Outcome Unit × Fs × List Event :=
  match get_profile w with
  | (.ok name, fs, tr) =>
    match fs.write name (setLine var value) with
    | .ok fs' => (.ok (), fs', tr ++ [.wrote name (setLine var value)])
    | .error e => (.err e, fs, tr)
  | (.err e, fs, tr) => (.err e, fs, tr)
  | (.panic m, fs, tr) => (.panic m, fs, tr)

/-- `append(var, value)`: acquire the profile handle, write the
`appendLine`, flush, and return `Ok(())`. -/
def append (w : World) (var value : String) : Outcome Unit × Fs × List Event :=
  match get_profile w with
  | (.ok name, fs, tr) =>
    match fs.write name (appendLine var value) with
    | .ok fs' => (.ok (), fs', tr ++ [.wrote name (appendLine var value)])
    | .error e => (.err e, fs, tr)
  | (.err e, fs, tr) => (.err e, fs, tr)
  | (.panic m, fs, tr) => (.panic m, fs, tr)

/-- `env::var(&var)` restricted to what the library observes: the value of
`var` in the current process environment, when present. -/
def lookupEnv (env : List (String × String)) (name : String) : Option String :=
  assocFind env name

/-- `check_or_set(var, value)`:
`env::var(&var).map(|_| ()).or_else(|_| set(var, value))`. -/
def check_or_set (w : World) (var value : String) : Outcome Unit × Fs × List Event :=
  match lookupEnv w.env var with
  | some _ => (.ok (), w.fs, [.readVar var])
  | none =>
    match set w var value with
    | (o, fs', tr) => (o, fs', .readVar var :: tr)

/-- Is the event a file-system touch (open attempt, creation, or write)? -/
def Event.isFileEvent : Event → Bool
  | .openAttempt _ => true
  | .created _ => true
  | .wrote _ _ => true
  | _ => false

/-- The file-system touches of a trace. -/
def fileEvents (tr : List Event) : List Event :=
  tr.filter Event.isFileEvent

/-- The successful writes of a trace. -/
def wroteEvents (tr : List Event) : List Event :=
  tr.filter fun e => match e with
    | .wrote _ _ => true
    | _ => false

/-! ### Association-list lemmas -/

lemma assocFind_append (l l₂ : List (String × String)) (n : String) :
    assocFind (l ++ l₂) n =
      (match assocFind l n with
        | some v => some v
        | none => assocFind l₂ n) := by
  induction l with
  | nil => simp [assocFind]
  | cons kv rest ih =>
    obtain ⟨k, v⟩ := kv
    by_cases h : k = n
    · simp [assocFind, h]
    · simp [assocFind, h, ih]

lemma assocFind_assocSet_self (l : List (String × String)) (n c : String) :
    assocFind (assocSet l n c) n = some c := by
  induction l with
  | nil => simp [assocFind, assocSet]
  | cons kv rest ih =>
    obtain ⟨k, v⟩ := kv
    by_cases h : k = n
    · simp [assocFind, assocSet, h]
    · simp [assocFind, assocSet, h, ih]

lemma assocFind_assocSet_other (l : List (String × String)) (n c m : String) (hm : m ≠ n) :
    assocFind (assocSet l n c) m = assocFind l m := by
  have hnm : ¬ (n = m) := fun h => hm h.symm
  induction l with
  | nil => simp [assocFind, assocSet, hnm]
  | cons kv rest ih =>
    obtain ⟨k, v⟩ := kv
    by_cases h : k = n
    · subst h
      simp [assocFind, assocSet, hnm]
    · simp only [assocSet, if_neg h]
      by_cases h2 : k = m
      · simp [assocFind, h2]
      · simp [assocFind, h2, ih]

/-! ### Write-step lemmas -/

lemma write_ok_elim (fs : Fs) (name data : String) (fs₂ : Fs)
    (h : fs.write name data = .ok fs₂) :
    ∃ c, assocFind fs.files name = some c ∧ name ∉ fs.writeFail ∧
      fs₂ = ⟨assocSet fs.files name (c ++ data), fs.openFail, fs.writeFail⟩ := by
  by_cases hw : name ∈ fs.writeFail
  · simp [Fs.write, hw] at h
  · cases hf : assocFind fs.files name with
    | none => simp [Fs.write, hw, hf] at h
    | some c =>
      refine ⟨c, rfl, hw, ?_⟩
      simp [Fs.write, hw, hf] at h
      exact h.symm

lemma write_ok_build (fs : Fs) (name data c : String)
    (hf : assocFind fs.files name = some c) (hw : name ∉ fs.writeFail) :
    fs.write name data = .ok ⟨assocSet fs.files name (c ++ data), fs.openFail, fs.writeFail⟩ := by
  simp [Fs.write, hw, hf]

/-! ### Candidate-loop lemmas -/

lemma tryCandidates_ok (fs : Fs) (name : String) (fs' : Fs)
    (entries : List (String × String)) :
    ∀ (create : Bool) (tr : List Event),
    tryCandidates fs create entries = (.ok name, fs', tr) →
    (fs' = fs ∧ ∃ c, fs.content name = some c ∧ name ∉ fs.openFail) ∨
    (fs.content name = none ∧
      fs' = ⟨fs.files ++ [(name, "")], fs.openFail, fs.writeFail⟩) := by
  induction entries with
  | nil => intro create tr h; simp [tryCandidates] at h
  | cons kv rest ih =>
    intro create tr h
    obtain ⟨k, v⟩ := kv
    simp only [tryCandidates] at h
    by_cases hve : v.isEmpty
    · rw [if_pos hve] at h
      exact ih _ _ h
    · rw [if_neg hve] at h
      cases hoa : openAppend fs (create || (k == "profile")) v with
      | some pr =>
        obtain ⟨fs₂, made⟩ := pr
        rw [hoa] at h
        simp only [Prod.mk.injEq, Outcome.ok.injEq] at h
        obtain ⟨h1, h2, _⟩ := h
        subst h1
        cases hf : assocFind fs.files v with
        | some c =>
          by_cases ho : v ∈ fs.openFail
          · simp [openAppend, hf, ho] at hoa
          · simp only [openAppend, hf, ho, if_false, Option.some.injEq, Prod.mk.injEq] at hoa
            exact Or.inl ⟨h2.symm.trans hoa.1.symm, c, hf, ho⟩
        | none =>
          by_cases hc : (create || (k == "profile")) = true
          · simp only [openAppend, hf, hc, if_true, Option.some.injEq, Prod.mk.injEq] at hoa
            exact Or.inr ⟨hf, h2.symm.trans hoa.1.symm⟩
          · rw [Bool.not_eq_true] at hc
            simp [openAppend, hf, hc] at hoa
      | none =>
        rw [hoa] at h
        cases hr : tryCandidates fs (create || (k == "profile")) rest with
        | mk o pr =>
          obtain ⟨fs₃, tr₃⟩ := pr
          rw [hr] at h
          simp only [Prod.mk.injEq] at h
          obtain ⟨h1, h2, _⟩ := h
          exact ih _ _ (hr.trans (by rw [h1, h2]))

lemma tryCandidates_err (fs : Fs) (e : IoError) (fs' : Fs)
    (entries : List (String × String)) :
    ∀ (create : Bool) (tr : List Event),
    tryCandidates fs create entries = (.err e, fs', tr) → fs' = fs := by
  induction entries with
  | nil =>
    intro create tr h
    simp only [tryCandidates, Prod.mk.injEq] at h
    exact h.2.1.symm
  | cons kv rest ih =>
    intro create tr h
    obtain ⟨k, v⟩ := kv
    simp only [tryCandidates] at h
    by_cases hve : v.isEmpty
    · rw [if_pos hve] at h; exact ih _ _ h
    · rw [if_neg hve] at h
      cases hoa : openAppend fs (create || (k == "profile")) v with
      | some pr =>
        obtain ⟨fs₂, made⟩ := pr
        rw [hoa] at h
        simp at h
      | none =>
        rw [hoa] at h
        cases hr : tryCandidates fs (create || (k == "profile")) rest with
        | mk o pr =>
          obtain ⟨fs₃, tr₃⟩ := pr
          rw [hr] at h
          simp only [Prod.mk.injEq] at h
          obtain ⟨h1, h2, _⟩ := h
          exact ih _ _ (hr.trans (by rw [h1, h2]))

lemma tryCandidates_no_panic (fs : Fs) (m : String) (fs' : Fs)
    (entries : List (String × String)) :
    ∀ (create : Bool) (tr : List Event),
    tryCandidates fs create entries = (.panic m, fs', tr) → False := by
  induction entries with
  | nil => intro create tr h; simp [tryCandidates] at h
  | cons kv rest ih =>
    intro create tr h
    obtain ⟨k, v⟩ := kv
    simp only [tryCandidates] at h
    by_cases hve : v.isEmpty
    · rw [if_pos hve] at h; exact ih _ _ h
    · rw [if_neg hve] at h
      cases hoa : openAppend fs (create || (k == "profile")) v with
      | some pr =>
        obtain ⟨fs₂, made⟩ := pr
        rw [hoa] at h
        simp at h
      | none =>
        rw [hoa] at h
        cases hr : tryCandidates fs (create || (k == "profile")) rest with
        | mk o pr =>
          obtain ⟨fs₃, tr₃⟩ := pr
          rw [hr] at h
          simp only [Prod.mk.injEq] at h
          obtain ⟨h1, h2, _⟩ := h
          exact ih _ _ (hr.trans (by rw [h1, h2]))

lemma tryCandidates_no_wrote (fs : Fs) (create : Bool)
    (entries : List (String × String)) :
    wroteEvents (tryCandidates fs create entries).2.2 = [] := by
  induction entries generalizing create with
  | nil => simp [tryCandidates, wroteEvents]
  | cons kv rest ih =>
    obtain ⟨k, v⟩ := kv
    simp only [tryCandidates]
    by_cases hve : v.isEmpty
    · rw [if_pos hve]; exact ih _
    · rw [if_neg hve]
      cases hoa : openAppend fs (create || (k == "profile")) v with
      | some pr =>
        obtain ⟨fs₂, made⟩ := pr
        cases made <;> simp [wroteEvents]
      | none =>
        cases hr : tryCandidates fs (create || (k == "profile")) rest with
        | mk o pr =>
          obtain ⟨fs₃, tr₃⟩ := pr
          have := ih (create || (k == "profile"))
          rw [hr] at this
          simpa [wroteEvents] using this

/-! ### Profile-acquisition lemmas -/

lemma get_profile_ok_elim (w : World) (name : String) (fs' : Fs) (tr : List Event)
    (h : get_profile w = (.ok name, fs', tr)) :
    ∃ s sb sp tr₀,
      w.shellVar = some s ∧ w.home.found = true ∧ w.home.pathValid = true ∧
      w.home.metadataOk = true ∧ w.home.readonly = false ∧
      ShellBin.fromStr (lastSegment s) = .ok sb ∧
      SHELL.find? (fun p => p.shell_bin == sb) = some sp ∧
      tryCandidates w.fs false sp.shell_cfg_files = (.ok name, fs', tr₀) := by
  cases hsv : w.shellVar with
  | none => simp [get_profile, hsv] at h
  | some s =>
    simp only [get_profile, hsv] at h
    by_cases h1 : w.home.found = false
    · simp [h1] at h
    · rw [if_neg h1] at h
      rw [Bool.not_eq_false] at h1
      by_cases h2 : w.home.pathValid = false
      · simp [h2] at h
      · rw [if_neg h2] at h
        rw [Bool.not_eq_false] at h2
        by_cases h3 : w.home.metadataOk = false
        · simp [h3] at h
        · rw [if_neg h3] at h
          rw [Bool.not_eq_false] at h3
          by_cases h4 : w.home.readonly = true
          · simp [h4] at h
          · rw [if_neg h4] at h
            rw [Bool.not_eq_true] at h4
            cases hfp : find_profile w.fs (lastSegment s) with
            | mk o pr =>
              obtain ⟨fs₃, tr₃⟩ := pr
              rw [hfp] at h
              simp only [Prod.mk.injEq] at h
              obtain ⟨ho, hf2, _⟩ := h
              subst ho
              subst hf2
              simp only [find_profile] at hfp
              cases hfs : ShellBin.fromStr (lastSegment s) with
              | error sb₀ => simp only [hfs] at hfp; simp at hfp
              | ok sb =>
                simp only [hfs] at hfp
                cases hfind : SHELL.find? (fun p => p.shell_bin == sb) with
                | none => simp only [hfind] at hfp; simp at hfp
                | some sp =>
                  simp only [hfind] at hfp
                  cases htc : tryCandidates w.fs false sp.shell_cfg_files with
                  | mk o₂ pr₂ =>
                    obtain ⟨fs₄, tr₄⟩ := pr₂
                    simp only [htc] at hfp
                    simp only [Prod.mk.injEq] at hfp
                    obtain ⟨ha, hb, _⟩ := hfp
                    exact ⟨s, sb, sp, tr₄, rfl, h1, h2, h3, h4, hfs, hfind,
                      htc.trans (by rw [ha, hb])⟩

lemma get_profile_build (w : World) (s : String) (sb : ShellBin) (sp : ShellProfile)
    (name : String) (fs' : Fs) (tr₀ : List Event)
    (hs : w.shellVar = some s)
    (h1 : w.home.found = true) (h2 : w.home.pathValid = true)
    (h3 : w.home.metadataOk = true) (h4 : w.home.readonly = false)
    (hsb : ShellBin.fromStr (lastSegment s) = .ok sb)
    (hsp : SHELL.find? (fun p => p.shell_bin == sb) = some sp)
    (htc : tryCandidates w.fs false sp.shell_cfg_files = (.ok name, fs', tr₀)) :
    get_profile w =
      (.ok name, fs',
        [.readShellVar, .resolveHome, .coercePath, .parseShellPath, .checkMetadata,
          .checkWritable] ++ (.matchShellKind :: tr₀)) := by
  simp [get_profile, hs, h1, h2, h3, h4, find_profile, hsb, hsp, htc]

lemma get_profile_fs_or_ok (w : World) :
    (get_profile w).2.1 = w.fs ∨ (∃ name, (get_profile w).1 = .ok name) := by
  cases hsv : w.shellVar with
  | none => simp [get_profile, hsv]
  | some s =>
    simp only [get_profile, hsv]
    by_cases h1 : w.home.found = false
    · simp [h1]
    · rw [if_neg h1]
      by_cases h2 : w.home.pathValid = false
      · simp [h2]
      · rw [if_neg h2]
        by_cases h3 : w.home.metadataOk = false
        · simp [h3]
        · rw [if_neg h3]
          by_cases h4 : w.home.readonly = true
          · simp [h4]
          · rw [if_neg h4]
            cases hfp : find_profile w.fs (lastSegment s) with
            | mk o pr =>
              obtain ⟨fs₃, tr₃⟩ := pr
              simp only [hfp]
              simp only [find_profile] at hfp
              cases hfs : ShellBin.fromStr (lastSegment s) with
              | error sb₀ =>
                simp only [hfs] at hfp
                simp only [Prod.mk.injEq] at hfp
                exact Or.inl hfp.2.1.symm
              | ok sb =>
                simp only [hfs] at hfp
                cases hfind : SHELL.find? (fun p => p.shell_bin == sb) with
                | none =>
                  simp only [hfind] at hfp
                  simp only [Prod.mk.injEq] at hfp
                  exact Or.inl hfp.2.1.symm
                | some sp =>
                  simp only [hfind] at hfp
                  cases htc : tryCandidates w.fs false sp.shell_cfg_files with
                  | mk o₂ pr₂ =>
                    obtain ⟨fs₄, tr₄⟩ := pr₂
                    simp only [htc] at hfp
                    simp only [Prod.mk.injEq] at hfp
                    obtain ⟨ha, hb, _⟩ := hfp
                    cases o₂ with
                    | ok nm => exact Or.inr ⟨nm, by rw [← ha]⟩
                    | err e =>
                      have := tryCandidates_err w.fs e fs₄ sp.shell_cfg_files false tr₄ htc
                      exact Or.inl (by rw [← hb, this])
                    | panic m =>
                      exact absurd htc
                        (fun hc =>
                          tryCandidates_no_panic w.fs m fs₄ sp.shell_cfg_files false tr₄ hc)

lemma get_profile_no_wrote (w : World) :
    wroteEvents (get_profile w).2.2 = [] := by
  cases hsv : w.shellVar with
  | none => simp [get_profile, hsv, wroteEvents]
  | some s =>
    simp only [get_profile, hsv]
    by_cases h1 : w.home.found = false
    · simp [h1, wroteEvents]
    · rw [if_neg h1]
      by_cases h2 : w.home.pathValid = false
      · simp [h2, wroteEvents]
      · rw [if_neg h2]
        by_cases h3 : w.home.metadataOk = false
        · simp [h3, wroteEvents]
        · rw [if_neg h3]
          by_cases h4 : w.home.readonly = true
          · simp [h4, wroteEvents]
          · rw [if_neg h4]
            cases hfp : find_profile w.fs (lastSegment s) with
            | mk o pr =>
              obtain ⟨fs₃, tr₃⟩ := pr
              simp only [hfp]
              have hfind : wroteEvents tr₃ = [] := by
                simp only [find_profile] at hfp
                cases hfs : ShellBin.fromStr (lastSegment s) with
                | error sb₀ =>
                  simp only [hfs] at hfp
                  simp only [Prod.mk.injEq] at hfp
                  rw [← hfp.2.2]
                  simp [wroteEvents]
                | ok sb =>
                  simp only [hfs] at hfp
                  cases hfind : SHELL.find? (fun p => p.shell_bin == sb) with
                  | none =>
                    simp only [hfind] at hfp
                    simp only [Prod.mk.injEq] at hfp
                    rw [← hfp.2.2]
                    simp [wroteEvents]
                  | some sp =>
                    simp only [hfind] at hfp
                    cases htc : tryCandidates w.fs false sp.shell_cfg_files with
                    | mk o₂ pr₂ =>
                      obtain ⟨fs₄, tr₄⟩ := pr₂
                      simp only [htc] at hfp
                      simp only [Prod.mk.injEq] at hfp
                      have := tryCandidates_no_wrote w.fs false sp.shell_cfg_files
                      rw [htc] at this
                      rw [← hfp.2.2]
                      simpa [wroteEvents] using this
              simp [wroteEvents, List.filter_append] at hfind ⊢
              simpa [wroteEvents] using hfind

/-! ### Operation-level lemmas -/

/-- Proof-layer abbreviation: the shared shape of `set` and `append`
(acquire the profile handle, write one line through it, flush). -/
def writeThrough (w : World) (line : String) : Outcome Unit × Fs × List Event :=
  match get_profile w with
  | (.ok name, fs, tr) =>
    match fs.write name line with
    | .ok fs' => (.ok (), fs', tr ++ [.wrote name line])
    | .error e => (.err e, fs, tr)
  | (.err e, fs, tr) => (.err e, fs, tr)
  | (.panic m, fs, tr) => (.panic m, fs, tr)

lemma set_eq_writeThrough (w : World) (var value : String) :
    set w var value = writeThrough w (setLine var value) := by
  cases hg : get_profile w with
  | mk o pr =>
    obtain ⟨fs₁, tr₁⟩ := pr
    cases o <;> simp only [set, writeThrough, hg]

lemma append_eq_writeThrough (w : World) (var value : String) :
    append w var value = writeThrough w (appendLine var value) := by
  cases hg : get_profile w with
  | mk o pr =>
    obtain ⟨fs₁, tr₁⟩ := pr
    cases o <;> simp only [append, writeThrough, hg]

lemma writeThrough_ok_spec (w : World) (line : String)
    (h : (writeThrough w line).1 = .ok ()) :
    ∃ name, (get_profile w).1 = .ok name ∧
      (writeThrough w line).2.1.content name
        = some ((w.fs.content name).getD "" ++ line) ∧
      (∀ m, m ≠ name → (writeThrough w line).2.1.content m = w.fs.content m) ∧
      Event.wrote name line ∈ (writeThrough w line).2.2 := by
  cases hg : get_profile w with
  | mk o pr =>
    obtain ⟨fs₁, tr₁⟩ := pr
    cases o with
    | err e => simp [writeThrough, hg] at h
    | panic m => simp [writeThrough, hg] at h
    | ok name =>
      cases hw : fs₁.write name line with
      | error e => simp [writeThrough, hg, hw] at h
      | ok fs₂ =>
        obtain ⟨c, hc, hwf, hfs2⟩ := write_ok_elim fs₁ name line fs₂ hw
        obtain ⟨s, sb, sp, tr₀, _, _, _, _, _, _, _, htc⟩ :=
          get_profile_ok_elim w name fs₁ tr₁ hg
        have hcase := tryCandidates_ok w.fs name fs₁ sp.shell_cfg_files false tr₀ htc
        refine ⟨name, by simp [hg], ?_, ?_, ?_⟩
        · simp only [writeThrough, hg, hw, Fs.content, hfs2]
          rw [assocFind_assocSet_self]
          rcases hcase with ⟨hfs1, c', hc', _⟩ | ⟨hnone, hfs1⟩
          · rw [hfs1] at hc
            rw [hc]
            rfl
          · rw [hfs1] at hc
            simp only at hc
            rw [assocFind_append] at hc
            have hwnone : assocFind w.fs.files name = none := hnone
            rw [hwnone] at hc
            simp [assocFind] at hc
            rw [hwnone, ← hc]
            rfl
        · intro m hm
          simp only [writeThrough, hg, hw, Fs.content, hfs2]
          rw [assocFind_assocSet_other _ _ _ _ hm]
          rcases hcase with ⟨hfs1, _, _, _⟩ | ⟨hnone, hfs1⟩
          · rw [hfs1]
          · rw [hfs1]
            simp only
            rw [assocFind_append]
            cases hwm : assocFind w.fs.files m with
            | some v => simp
            | none => simp [assocFind, Ne.symm hm]
        · simp [writeThrough, hg, hw]

lemma writeThrough_err_spec (w : World) (line : String) (e : IoError)
    (h : (writeThrough w line).1 = .err e) :
    (∀ n, (writeThrough w line).2.1.content n = w.fs.content n ∨
      (w.fs.content n = none ∧ (writeThrough w line).2.1.content n = some "")) ∧
    wroteEvents (writeThrough w line).2.2 = [] := by
  cases hg : get_profile w with
  | mk o pr =>
    obtain ⟨fs₁, tr₁⟩ := pr
    cases o with
    | panic m => simp [writeThrough, hg] at h
    | err e₀ =>
      have hfs : fs₁ = w.fs := by
        rcases get_profile_fs_or_ok w with hu | ⟨nm, hex⟩
        · rw [hg] at hu; exact hu
        · rw [hg] at hex; simp at hex
      have hnw := get_profile_no_wrote w
      rw [hg] at hnw
      simp only [writeThrough, hg]
      exact ⟨fun n => Or.inl (by rw [hfs]), hnw⟩
    | ok name =>
      cases hw : fs₁.write name line with
      | ok fs₂ => simp [writeThrough, hg, hw] at h
      | error e₁ =>
        obtain ⟨s, sb, sp, tr₀, _, _, _, _, _, _, _, htc⟩ :=
          get_profile_ok_elim w name fs₁ tr₁ hg
        have hcase := tryCandidates_ok w.fs name fs₁ sp.shell_cfg_files false tr₀ htc
        have hnw := get_profile_no_wrote w
        rw [hg] at hnw
        simp only [writeThrough, hg, hw]
        refine ⟨fun n => ?_, hnw⟩
        rcases hcase with ⟨hfs1, _, _, _⟩ | ⟨hnone, hfs1⟩
        · exact Or.inl (by rw [hfs1])
        · by_cases hn : n = name
          · subst hn
            refine Or.inr ⟨hnone, ?_⟩
            rw [hfs1]
            simp only [Fs.content]
            rw [assocFind_append]
            have : assocFind w.fs.files n = none := hnone
            rw [this]
            simp [assocFind]
          · refine Or.inl ?_
            rw [hfs1]
            simp only [Fs.content]
            rw [assocFind_append]
            cases hwm : assocFind w.fs.files n with
            | some v => simp
            | none =>
              have hnn : ¬ name = n := fun hx => hn (Eq.symm hx)
              simp [assocFind, hnn]

lemma writeThrough_panic_spec (w : World) (line : String) (m : String)
    (h : (writeThrough w line).1 = .panic m) :
    (writeThrough w line).2.1 = w.fs ∧ wroteEvents (writeThrough w line).2.2 = [] := by
  cases hg : get_profile w with
  | mk o pr =>
    obtain ⟨fs₁, tr₁⟩ := pr
    cases o with
    | err e₀ => simp [writeThrough, hg] at h
    | ok name =>
      cases hw : fs₁.write name line with
      | ok fs₂ => simp [writeThrough, hg, hw] at h
      | error e₁ => simp [writeThrough, hg, hw] at h
    | panic m₀ =>
      have hfs : fs₁ = w.fs := by
        rcases get_profile_fs_or_ok w with hu | ⟨nm, hex⟩
        · rw [hg] at hu; exact hu
        · rw [hg] at hex; simp at hex
      have hnw := get_profile_no_wrote w
      rw [hg] at hnw
      simp only [writeThrough, hg]
      exact ⟨hfs, hnw⟩

/-- Re-locating after a successful locate-and-write finds the same file
again: if the candidate walk selected `name` on a file system with no
doomed opens, then after updating the content of `name` the walk still
selects `name` and leaves the file system unchanged. -/
lemma tryCandidates_stable (fs : Fs) (name c : String) (fs' : Fs)
    (entries : List (String × String)) (hopen : fs.openFail = []) :
    ∀ (create : Bool) (tr : List Event),
    tryCandidates fs create entries = (.ok name, fs', tr) →
    (tryCandidates ⟨assocSet fs'.files name c, fs.openFail, fs.writeFail⟩
        create entries).1 = .ok name ∧
    (tryCandidates ⟨assocSet fs'.files name c, fs.openFail, fs.writeFail⟩
        create entries).2.1
      = ⟨assocSet fs'.files name c, fs.openFail, fs.writeFail⟩ := by
  induction entries with
  | nil => intro create tr h; simp [tryCandidates] at h
  | cons kv rest ih =>
    intro create tr h
    obtain ⟨k, v⟩ := kv
    have hfull := tryCandidates_ok fs name fs' ((k, v) :: rest) create tr h
    simp only [tryCandidates] at h ⊢
    by_cases hve : v.isEmpty
    · rw [if_pos hve] at h ⊢
      exact ih _ _ h
    · rw [if_neg hve] at h ⊢
      cases hoa : openAppend fs (create || (k == "profile")) v with
      | some pr =>
        obtain ⟨fs₂, made⟩ := pr
        rw [hoa] at h
        simp only [Prod.mk.injEq, Outcome.ok.injEq] at h
        obtain ⟨h1, h2, _⟩ := h
        subst h1
        have hpresent : assocFind (assocSet fs'.files v c) v = some c :=
          assocFind_assocSet_self _ _ _
        simp only [openAppend, Fs.content] at hpresent ⊢
        rw [hpresent]
        simp [hopen]
      | none =>
        rw [hoa] at h
        cases hr : tryCandidates fs (create || (k == "profile")) rest with
        | mk o prr =>
          obtain ⟨fs₃, tr₃⟩ := prr
          rw [hr] at h
          simp only [Prod.mk.injEq] at h
          obtain ⟨h1, h2, _⟩ := h
          have hrest : tryCandidates fs (create || (k == "profile")) rest
              = (.ok name, fs', tr₃) := hr.trans (by rw [h1, h2])
          -- the first run failed to open v: with no doomed opens this
          -- means v is absent and creation was not yet enabled
          have habsent : assocFind fs.files v = none := by
            cases hx : assocFind fs.files v with
            | none => rfl
            | some cv =>
              by_cases ho : v ∈ fs.openFail
              · rw [hopen] at ho; simp at ho
              · simp [openAppend, hx, ho] at hoa
          have hnocreate : (create || (k == "profile")) = false := by
            cases hx : (create || (k == "profile")) with
            | false => rfl
            | true => simp [openAppend, habsent, hx] at hoa
          by_cases hvn : v = name
          · -- the updated file system has v = name present, so the walk
            -- now succeeds already at this candidate, selecting name
            subst hvn
            have hpresent : assocFind (assocSet fs'.files v c) v = some c :=
              assocFind_assocSet_self _ _ _
            simp only [openAppend]
            rw [hpresent]
            simp [hopen]
          · -- v is still absent in the updated file system
            have hvabsent : assocFind (assocSet fs'.files name c) v = none := by
              rw [assocFind_assocSet_other _ _ _ _ hvn]
              rcases hfull with ⟨hfs1, _, _, _⟩ | ⟨_, hfs1⟩
              · rw [hfs1]; exact habsent
              · rw [hfs1]
                simp only
                rw [assocFind_append, habsent]
                have hnv : ¬ name = v := fun hx => hvn (Eq.symm hx)
                simp [assocFind, hnv]
            simp only [openAppend]
            rw [hvabsent, hnocreate]
            simp only [Bool.false_eq_true, if_false]
            have hres := ih (create || (k == "profile")) tr₃ hrest
            rw [hnocreate] at hres
            exact hres

lemma check_or_set_present (w : World) (var value v₀ : String)
    (he : lookupEnv w.env var = some v₀) :
    check_or_set w var value = (.ok (), w.fs, [.readVar var]) := by
  simp [check_or_set, he]

lemma check_or_set_absent (w : World) (var value : String)
    (he : lookupEnv w.env var = none) :
    check_or_set w var value
      = ((set w var value).1, (set w var value).2.1,
          .readVar var :: (set w var value).2.2) := by
  cases hs : set w var value with
  | mk o pr =>
    obtain ⟨f, t⟩ := pr
    simp [check_or_set, he, hs]

/-- The zsh candidate walk when `.zlogin` is present: it opens and wins. -/
lemma zsh_walk_login (fs : Fs) (hopen : fs.openFail = []) (c : String)
    (hl : assocFind fs.files ".zlogin" = some c) :
    tryCandidates fs false zshProfile.shell_cfg_files
      = (.ok ".zlogin", fs, [.openAttempt ".zlogin"]) := by
  have e1 : ((".zlogin" : String).isEmpty) = false := by decide
  simp [tryCandidates, zshProfile, e1, openAppend, hl, hopen]

/-- The zsh candidate walk when `.zlogin` is absent and `.zprofile`
present: `.zprofile` opens and wins, `.zshrc` is never tried. -/
lemma zsh_walk_profile (fs : Fs) (hopen : fs.openFail = []) (c : String)
    (hl : assocFind fs.files ".zlogin" = none)
    (hp : assocFind fs.files ".zprofile" = some c) :
    tryCandidates fs false zshProfile.shell_cfg_files
      = (.ok ".zprofile", fs, [.openAttempt ".zlogin", .openAttempt ".zprofile"]) := by
  have e1 : ((".zlogin" : String).isEmpty) = false := by decide
  have e2 : ((".zprofile" : String).isEmpty) = false := by decide
  have k1 : ((("login" : String)) == "profile") = false := by decide
  have k2 : ((("profile" : String)) == "profile") = true := by decide
  simp [tryCandidates, zshProfile, e1, e2, k1, k2, openAppend, hl, hp, hopen]

/-- The zsh candidate walk when both `.zlogin` and `.zprofile` are absent:
`.zprofile` is created (the Profile candidate is opened with creation
enabled) and wins, `.zshrc` is never tried. -/
lemma zsh_walk_create (fs : Fs) (hopen : fs.openFail = [])
    (hl : assocFind fs.files ".zlogin" = none)
    (hp : assocFind fs.files ".zprofile" = none) :
    tryCandidates fs false zshProfile.shell_cfg_files
      = (.ok ".zprofile", ⟨fs.files ++ [(".zprofile", "")], fs.openFail, fs.writeFail⟩,
          [.openAttempt ".zlogin", .openAttempt ".zprofile", .created ".zprofile"]) := by
  have e1 : ((".zlogin" : String).isEmpty) = false := by decide
  have e2 : ((".zprofile" : String).isEmpty) = false := by decide
  have k1 : ((("login" : String)) == "profile") = false := by decide
  have k2 : ((("profile" : String)) == "profile") = true := by decide
  simp [tryCandidates, zshProfile, e1, e2, k1, k2, openAppend, hl, hp, hopen]

/-! ### Concrete worlds used by the claim theorems -/

/-- A healthy home directory: found, path representable, metadata
readable, not readonly. -/
def homeOk : HomeDir := ⟨true, true, true, false⟩

/-- C1 scenario world: shell `/bin/zsh`, home containing only `.zshrc`. -/
def worldC1 : World := ⟨some "/bin/zsh", [], homeOk, ⟨[(".zshrc", "alias ll")], [], []⟩⟩

/-- C2 witness world: shell `/bin/zsh`, home containing `.zlogin`. -/
def worldC2 : World := ⟨some "/bin/zsh", [], homeOk, ⟨[(".zlogin", "old")], [], []⟩⟩

/-- C3 worlds: healthy home, `SHELL` absent / empty / unrecognized. -/
def worldC3 (sv : Option String) : World :=
  ⟨sv, [], homeOk, ⟨[(".zshrc", "alias ll")], [], []⟩⟩

/-- C4 failing input: `.zprofile` exists but its append-mode open fails
(for example, it is a directory); `.zlogin` and `.zshrc` are absent. -/
def worldC4 : World := ⟨some "/bin/zsh", [], homeOk, ⟨[(".zprofile", "")], [".zprofile"], []⟩⟩

/-- C5 world: healthy home except not writable (readonly flag set). -/
def worldC5 : World := ⟨some "/bin/zsh", [], ⟨true, true, true, true⟩, ⟨[(".zshrc", "x")], [], []⟩⟩

/-- C6 and C10 world: target variable present in the process environment,
`SHELL` unset and the home directory entirely broken. -/
def worldC6 : World := ⟨none, [("FOO", "1")], ⟨false, false, false, true⟩, ⟨[], [], []⟩⟩

/-- C7 witness world: shell `/bin/zsh`, home containing `.zlogin` with
prior content. -/
def worldC7 : World := ⟨some "/bin/zsh", [], homeOk, ⟨[(".zlogin", "# mine\n")], [], []⟩⟩

/-- C8 failing input: no zsh profile files exist, so the locator creates
`.zprofile`, and the subsequent write to it fails (for example, the disk
fills). -/
def worldC8 : World := ⟨some "/bin/zsh", [], homeOk, ⟨[], [], [".zprofile"]⟩⟩

/-- C9 witness world: shell `/bin/zsh`, empty home file system. -/
def worldC9 : World := ⟨some "/bin/zsh", [], homeOk, ⟨[], [], []⟩⟩

/-! ### Claim theorems -/

/-- C1 counterexample: for shell `/bin/zsh` and a home directory that
contains only `.zshrc`, the locator does **not** select `.zshrc`: the
Profile candidate `.zprofile` is opened with creation enabled before
`.zshrc` is ever tried, so `.zprofile` is created and selected, refuting
the claim at this concrete input. -/
theorem C1_cx_zshrc_only :
    (get_profile worldC1).1 = .ok ".zprofile" ∧
    worldC1.fs.content ".zprofile" = none ∧
    (get_profile worldC1).2.1.content ".zprofile" = some "" ∧
    (get_profile worldC1).1 ≠ .ok ".zshrc" := by decide

/-- C1 (amended): for shell kind zsh with a healthy home and no doomed
opens, the locator walks the phf-table order Login, Profile, ShellRc with
first-success-wins: it selects `.zlogin` when that file exists, otherwise
it selects `.zprofile` (creating it when absent, since the Profile
candidate is opened with creation enabled); `.zshrc` is never selected —
in particular a home containing only `.zshrc` gets `.zprofile` created
rather than `.zshrc` selected. -/
theorem C1_zsh_locator_order (w : World) (s : String)
    (hs : w.shellVar = some s)
    (hzsh : ShellBin.fromStr (lastSegment s) = .ok .zsh)
    (h1 : w.home.found = true) (h2 : w.home.pathValid = true)
    (h3 : w.home.metadataOk = true) (h4 : w.home.readonly = false)
    (hopen : w.fs.openFail = []) :
    (w.fs.content ".zlogin" ≠ none →
      (get_profile w).1 = .ok ".zlogin" ∧ (get_profile w).2.1 = w.fs) ∧
    (w.fs.content ".zlogin" = none →
      (get_profile w).1 = .ok ".zprofile" ∧
      (w.fs.content ".zprofile" = none →
        (get_profile w).2.1.content ".zprofile" = some "")) ∧
    (get_profile w).1 ≠ .ok ".zshrc" := by
  have hfind : SHELL.find? (fun p => p.shell_bin == ShellBin.zsh) = some zshProfile := by
    decide
  have main :
      (w.fs.content ".zlogin" ≠ none →
        (get_profile w).1 = .ok ".zlogin" ∧ (get_profile w).2.1 = w.fs) ∧
      (w.fs.content ".zlogin" = none →
        (get_profile w).1 = .ok ".zprofile" ∧
        (w.fs.content ".zprofile" = none →
          (get_profile w).2.1.content ".zprofile" = some "")) := by
    constructor
    · intro hl
      obtain ⟨c, hc⟩ := Option.ne_none_iff_exists.mp hl
      have hwalk := zsh_walk_login w.fs hopen c hc.symm
      have hgp := get_profile_build w s ShellBin.zsh zshProfile ".zlogin" w.fs
        [.openAttempt ".zlogin"] hs h1 h2 h3 h4 hzsh hfind hwalk
      rw [hgp]
      exact ⟨rfl, rfl⟩
    · intro hl
      have hl' : assocFind w.fs.files ".zlogin" = none := hl
      cases hp : assocFind w.fs.files ".zprofile" with
      | some c =>
        have hwalk := zsh_walk_profile w.fs hopen c hl' hp
        have hgp := get_profile_build w s ShellBin.zsh zshProfile ".zprofile" w.fs
          [.openAttempt ".zlogin", .openAttempt ".zprofile"] hs h1 h2 h3 h4 hzsh hfind hwalk
        rw [hgp]
        refine ⟨rfl, ?_⟩
        intro hpn
        have : assocFind w.fs.files ".zprofile" = none := hpn
        rw [this] at hp
        cases hp
      | none =>
        have hwalk := zsh_walk_create w.fs hopen hl' hp
        have hgp := get_profile_build w s ShellBin.zsh zshProfile ".zprofile"
          ⟨w.fs.files ++ [(".zprofile", "")], w.fs.openFail, w.fs.writeFail⟩
          [.openAttempt ".zlogin", .openAttempt ".zprofile", .created ".zprofile"]
          hs h1 h2 h3 h4 hzsh hfind hwalk
        rw [hgp]
        refine ⟨rfl, fun _ => ?_⟩
        simp only [Fs.content]
        rw [assocFind_append, hp]
        simp [assocFind]
  refine ⟨main.1, main.2, ?_⟩
  cases hl : w.fs.content ".zlogin" with
  | some c =>
    have := (main.1 (by rw [hl]; exact fun h => Option.noConfusion h)).1
    rw [this]
    simp
  | none =>
    have := (main.2 hl).1
    rw [this]
    simp

/-- C1 witness: the amended locator-order theorem applied to the concrete
world of the counterexample scenario (shell `/bin/zsh`, healthy home,
only `.zshrc` present). -/
theorem C1_zsh_locator_order_witness :
    ShellBin.fromStr (lastSegment "/bin/zsh") = .ok .zsh ∧
    ((worldC1.fs.content ".zlogin" ≠ none →
        (get_profile worldC1).1 = .ok ".zlogin" ∧ (get_profile worldC1).2.1 = worldC1.fs) ∧
      (worldC1.fs.content ".zlogin" = none →
        (get_profile worldC1).1 = .ok ".zprofile" ∧
        (worldC1.fs.content ".zprofile" = none →
          (get_profile worldC1).2.1.content ".zprofile" = some "")) ∧
      (get_profile worldC1).1 ≠ .ok ".zshrc") :=
  ⟨by decide,
    C1_zsh_locator_order worldC1 "/bin/zsh" rfl (by decide) rfl rfl rfl rfl rfl⟩

/-- C4: the code evaluated at the failing input.  The `create(true)` set
when the walk passes the Profile candidate is never reset, so after the
open of the existing-but-unopenable `.zprofile` fails, the absent `.zshrc`
(a ShellRc-role file) is created and selected — contradicting the claim
that only the Profile file may ever be created. -/
theorem C4_sticky_create_creates_zshrc :
    worldC4.fs.content ".zshrc" = none ∧
    (get_profile worldC4).1 = .ok ".zshrc" ∧
    (get_profile worldC4).2.1.content ".zshrc" = some "" := by decide

/-- C2 counterexample: a successful `set` run returns `Ok(())` — the unit
value — while the profile handle it opened and wrote (here `.zlogin`) is
consumed internally; the caller never receives the file handle, refuting
the claim that the three operations return it (their Rust signatures are
`io::Result<()>`). -/
theorem C2_cx_success_is_unit :
    set worldC2 "FOO" "1"
      = (.ok (),
          ⟨[(".zlogin", "old\nexport FOO=1\n")], [], []⟩,
          [.readShellVar, .resolveHome, .coercePath, .parseShellPath, .checkMetadata,
            .checkWritable, .matchShellKind, .openAttempt ".zlogin",
            .wrote ".zlogin" "\nexport FOO=1\n"]) ∧
    (get_profile worldC2).1 = .ok ".zlogin" := by decide

/-- C2 (amended): `check_or_set`, `append` and `set` return unit on
success (`io::Result<()>`), not the file handle: the located handle is
used internally — on success the line was written through it to the file
that `get_profile` selected — and dropped. -/
theorem C2_ops_return_unit (w : World) (var value : String) :
    ((set w var value).1 = .ok () →
      ∃ name, (get_profile w).1 = .ok name ∧
        (set w var value).2.1.content name
          = some ((w.fs.content name).getD "" ++ setLine var value)) ∧
    ((append w var value).1 = .ok () →
      ∃ name, (get_profile w).1 = .ok name ∧
        (append w var value).2.1.content name
          = some ((w.fs.content name).getD "" ++ appendLine var value)) ∧
    ((check_or_set w var value).1 = .ok () →
      ((lookupEnv w.env var).isSome ∧ (check_or_set w var value).2.1 = w.fs) ∨
      ∃ name, (get_profile w).1 = .ok name ∧
        (check_or_set w var value).2.1.content name
          = some ((w.fs.content name).getD "" ++ setLine var value)) := by
  have hsetpart : (set w var value).1 = .ok () →
      ∃ name, (get_profile w).1 = .ok name ∧
        (set w var value).2.1.content name
          = some ((w.fs.content name).getD "" ++ setLine var value) := by
    intro h
    rw [set_eq_writeThrough] at h ⊢
    obtain ⟨name, hn, hcontent, _, _⟩ := writeThrough_ok_spec w (setLine var value) h
    exact ⟨name, hn, hcontent⟩
  refine ⟨hsetpart, ?_, ?_⟩
  · intro h
    rw [append_eq_writeThrough] at h ⊢
    obtain ⟨name, hn, hcontent, _, _⟩ := writeThrough_ok_spec w (appendLine var value) h
    exact ⟨name, hn, hcontent⟩
  · intro h
    cases he : lookupEnv w.env var with
    | some v₀ =>
      left
      rw [check_or_set_present w var value v₀ he]
      simp [he]
    | none =>
      right
      rw [check_or_set_absent w var value he] at h ⊢
      exact hsetpart h

/-- C2 witness: the amended theorem applied to the concrete world where
`set` succeeds by writing to the existing `.zlogin`. -/
theorem C2_ops_return_unit_witness :
    (set worldC2 "FOO" "1").1 = .ok () ∧
    (∃ name, (get_profile worldC2).1 = .ok name ∧
      (set worldC2 "FOO" "1").2.1.content name
        = some ((worldC2.fs.content name).getD "" ++ setLine "FOO" "1")) :=
  ⟨by decide, (C2_ops_return_unit worldC2 "FOO" "1").1 (by decide)⟩

/-- C3 counterexample: with a healthy writable home, an absent `SHELL`
makes the operation panic at once, and an empty or unrecognized `SHELL`
makes it panic inside the locator closure — in every case the process
aborts with a panic message rather than returning an `UnsupportedShell`
error value on the `io::Result` channel (the file system is untouched). -/
theorem C3_cx_panics_not_error :
    (set (worldC3 none) "FOO" "1").1 = .panic "SHELL environment variable was not found" ∧
    (set (worldC3 none) "FOO" "1").2.1 = (worldC3 none).fs ∧
    (set (worldC3 (some "")) "FOO" "1").1
      = .panic "Unable to match shell_bin with a supported ShellType" ∧
    (set (worldC3 (some "")) "FOO" "1").2.1 = (worldC3 (some "")).fs ∧
    (set (worldC3 (some "/usr/bin/fish")) "FOO" "1").1
      = .panic "Unable to match shell_bin with a supported ShellType" ∧
    (set (worldC3 (some "/usr/bin/fish")) "FOO" "1").2.1
      = (worldC3 (some "/usr/bin/fish")).fs := by decide

/-- C3 (amended): for an empty, absent, or unrecognized shell identifier
(under a healthy home, so that the guard does not fail first), the
operation panics — the failure is loud, but it is a process abort, not an
error value returned to the caller — and no file is opened or created. -/
theorem C3_unsupported_shell_panics (w : World) (var value : String)
    (h1 : w.home.found = true) (h2 : w.home.pathValid = true)
    (h3 : w.home.metadataOk = true) (h4 : w.home.readonly = false)
    (hbad : w.shellVar = none ∨
      ∃ s, w.shellVar = some s ∧
        ShellBin.fromStr (lastSegment s) = .error .notSupported) :
    ∃ m, (set w var value).1 = .panic m ∧
      (set w var value).2.1 = w.fs ∧
      fileEvents (set w var value).2.2 = [] := by
  rcases hbad with hnone | ⟨s, hs, herr⟩
  · refine ⟨"SHELL environment variable was not found", ?_⟩
    simp [set, get_profile, hnone, fileEvents, Event.isFileEvent]
  · refine ⟨"Unable to match shell_bin with a supported ShellType", ?_⟩
    simp [set, get_profile, hs, h1, h2, h3, h4, find_profile, herr, fileEvents,
      Event.isFileEvent]

/-- C3 witness: the amended theorem applied to the unrecognized shell
`/usr/bin/fish` with a healthy home. -/
theorem C3_unsupported_shell_panics_witness :
    ShellBin.fromStr (lastSegment "/usr/bin/fish") = .error .notSupported ∧
    (∃ m, (set (worldC3 (some "/usr/bin/fish")) "FOO" "1").1 = .panic m ∧
      (set (worldC3 (some "/usr/bin/fish")) "FOO" "1").2.1 = (worldC3 (some "/usr/bin/fish")).fs ∧
      fileEvents (set (worldC3 (some "/usr/bin/fish")) "FOO" "1").2.2 = []) :=
  ⟨by decide,
    C3_unsupported_shell_panics (worldC3 (some "/usr/bin/fish")) "FOO" "1"
      rfl rfl rfl rfl (Or.inr ⟨"/usr/bin/fish", rfl, by decide⟩)⟩

/-- C5 counterexample: with an unwritable home the operation does fail
with `PermissionDenied`, but the trace of that very failing run already
contains the read of `SHELL` and the parse of its final path segment —
shell-resolution work that the claim says happens only after the guard. -/
theorem C5_cx_shell_read_before_guard :
    (set worldC5 "FOO" "1").1
      = .err ⟨.permissionDenied, "Unable to write to home directory, cannot export env var"⟩ ∧
    Event.readShellVar ∈ (set worldC5 "FOO" "1").2.2 ∧
    Event.parseShellPath ∈ (set worldC5 "FOO" "1").2.2 := by decide

/-- C5 (amended): with an unwritable home every `set` run fails with
`PermissionDenied` before any file is touched and before the shell kind is
matched against the catalog — but the `SHELL` variable is read at entry
and its final path segment is extracted *before* the writability check, so
the guard does not precede all shell-resolution work. -/
theorem C5_guard_order (w : World) (var value s : String)
    (hs : w.shellVar = some s)
    (h1 : w.home.found = true) (h2 : w.home.pathValid = true)
    (h3 : w.home.metadataOk = true) (h4 : w.home.readonly = true) :
    (set w var value).1
      = .err ⟨.permissionDenied, "Unable to write to home directory, cannot export env var"⟩ ∧
    (set w var value).2.1 = w.fs ∧
    (set w var value).2.2
      = [.readShellVar, .resolveHome, .coercePath, .parseShellPath, .checkMetadata,
          .checkWritable] ∧
    Event.matchShellKind ∉ (set w var value).2.2 ∧
    fileEvents (set w var value).2.2 = [] := by
  have hgp : get_profile w
      = (.err ⟨.permissionDenied, "Unable to write to home directory, cannot export env var"⟩,
          w.fs,
          [.readShellVar, .resolveHome, .coercePath, .parseShellPath, .checkMetadata,
            .checkWritable]) := by
    simp [get_profile, hs, h1, h2, h3, h4]
  refine ⟨?_, ?_, ?_, ?_, ?_⟩ <;> simp [set, hgp, fileEvents, Event.isFileEvent]

/-- C5 witness: the amended theorem applied to the concrete unwritable
home world. -/
theorem C5_guard_order_witness :
    worldC5.home.readonly = true ∧
    ((set worldC5 "FOO" "1").1
        = .err ⟨.permissionDenied, "Unable to write to home directory, cannot export env var"⟩ ∧
      (set worldC5 "FOO" "1").2.1 = worldC5.fs ∧
      (set worldC5 "FOO" "1").2.2
        = [.readShellVar, .resolveHome, .coercePath, .parseShellPath, .checkMetadata,
            .checkWritable] ∧
      Event.matchShellKind ∉ (set worldC5 "FOO" "1").2.2 ∧
      fileEvents (set worldC5 "FOO" "1").2.2 = []) :=
  ⟨rfl, C5_guard_order worldC5 "FOO" "1" "/bin/zsh" rfl rfl rfl rfl rfl⟩

/-- C6: `check_or_set` first consults the current process environment for
the variable: when present it returns success immediately with the file
system untouched and no file event in its trace; when absent its outcome
and resulting file system are exactly those of `set`, which it calls. -/
theorem C6_check_or_set_delegates (w : World) (var value : String) :
    ((lookupEnv w.env var).isSome →
      (check_or_set w var value).1 = .ok () ∧
      (check_or_set w var value).2.1 = w.fs ∧
      fileEvents (check_or_set w var value).2.2 = []) ∧
    (lookupEnv w.env var = none →
      (check_or_set w var value).1 = (set w var value).1 ∧
      (check_or_set w var value).2.1 = (set w var value).2.1 ∧
      (check_or_set w var value).2.2 = .readVar var :: (set w var value).2.2) := by
  constructor
  · intro h
    obtain ⟨v₀, hv⟩ := Option.isSome_iff_exists.mp h
    rw [check_or_set_present w var value v₀ hv]
    refine ⟨rfl, rfl, ?_⟩
    simp [fileEvents, Event.isFileEvent]
  · intro he
    rw [check_or_set_absent w var value he]
    exact ⟨rfl, rfl, rfl⟩

/-- C6 witness: `FOO` is present in the process environment of the
concrete world, so `check_or_set` succeeds with zero file writes. -/
theorem C6_check_or_set_delegates_witness :
    (lookupEnv worldC6.env "FOO").isSome ∧
    ((check_or_set worldC6 "FOO" "1").1 = .ok () ∧
      (check_or_set worldC6 "FOO" "1").2.1 = worldC6.fs ∧
      fileEvents (check_or_set worldC6 "FOO" "1").2.2 = []) :=
  ⟨by decide, (C6_check_or_set_delegates worldC6 "FOO" "1").1 (by decide)⟩

/-- C10: when the target variable is present in the process environment,
`check_or_set` succeeds returning unit without reading `SHELL`, without
resolving the home directory, and without touching the file system — in
particular it cannot panic even when `SHELL` is unset and the home
directory is missing or unwritable, since `set` is never invoked. -/
theorem C10_present_var_short_circuits (w : World) (var value : String)
    (h : (lookupEnv w.env var).isSome) :
    (check_or_set w var value).1 = .ok () ∧
    (check_or_set w var value).2.1 = w.fs ∧
    Event.readShellVar ∉ (check_or_set w var value).2.2 ∧
    Event.resolveHome ∉ (check_or_set w var value).2.2 ∧
    fileEvents (check_or_set w var value).2.2 = [] := by
  obtain ⟨v₀, hv⟩ := Option.isSome_iff_exists.mp h
  rw [check_or_set_present w var value v₀ hv]
  refine ⟨rfl, rfl, by simp, by simp, by simp [fileEvents, Event.isFileEvent]⟩

/-- C10 witness: applied to the world whose `SHELL` is unset and whose
home directory is missing and unwritable — `check_or_set` still succeeds
because `FOO` is present in the process environment. -/
theorem C10_present_var_short_circuits_witness :
    ((lookupEnv worldC6.env "FOO").isSome ∧ worldC6.shellVar = none ∧
      worldC6.home.found = false) ∧
    ((check_or_set worldC6 "FOO" "1").1 = .ok () ∧
      (check_or_set worldC6 "FOO" "1").2.1 = worldC6.fs ∧
      Event.readShellVar ∉ (check_or_set worldC6 "FOO" "1").2.2 ∧
      Event.resolveHome ∉ (check_or_set worldC6 "FOO" "1").2.2 ∧
      fileEvents (check_or_set worldC6 "FOO" "1").2.2 = []) :=
  ⟨⟨by decide, rfl, rfl⟩, C10_present_var_short_circuits worldC6 "FOO" "1" (by decide)⟩

/-- C7: a successful `append(var, value)` writes exactly
`"\nexport var=\"value:$var\"\n"` (a leading blank line, the export line,
a trailing newline — `writeln!` supplies the trailing newline) onto the
end of the located profile file: the new content is the old content
followed by that line, the old content is a byte-prefix of the new
content, and every other file is untouched. -/
theorem C7_append_is_pure_append (w : World) (var value : String)
    (h : (append w var value).1 = .ok ()) :
    ∃ name, (get_profile w).1 = .ok name ∧
      (append w var value).2.1.content name
        = some ((w.fs.content name).getD "" ++ appendLine var value) ∧
      (∃ t, (((append w var value).2.1.content name).getD "").data
          = ((w.fs.content name).getD "").data ++ t) ∧
      (∀ m, m ≠ name → (append w var value).2.1.content m = w.fs.content m) := by
  rw [append_eq_writeThrough] at h ⊢
  obtain ⟨name, hn, hcontent, hother, _⟩ := writeThrough_ok_spec w (appendLine var value) h
  refine ⟨name, hn, hcontent, ⟨(appendLine var value).data, ?_⟩, hother⟩
  rw [hcontent]
  simp [String.data_append]

/-- C7 witness: the pure-append theorem applied to a concrete world where
`append("PATH", "/x/bin")` succeeds on an existing `.zlogin`. -/
theorem C7_append_is_pure_append_witness :
    (append worldC7 "PATH" "/x/bin").1 = .ok () ∧
    (∃ name, (get_profile worldC7).1 = .ok name ∧
      (append worldC7 "PATH" "/x/bin").2.1.content name
        = some ((worldC7.fs.content name).getD "" ++ appendLine "PATH" "/x/bin") ∧
      (∃ t, (((append worldC7 "PATH" "/x/bin").2.1.content name).getD "").data
          = ((worldC7.fs.content name).getD "").data ++ t) ∧
      (∀ m, m ≠ name →
        (append worldC7 "PATH" "/x/bin").2.1.content m = worldC7.fs.content m)) :=
  ⟨by decide, C7_append_is_pure_append worldC7 "PATH" "/x/bin" (by decide)⟩

/-- C8 counterexample: when no zsh profile file exists the locator creates
an empty `.zprofile`, and when the subsequent write to it fails the whole
`set` fails — yet the newly created empty `.zprofile` remains: the file
system is *not* unchanged on this failure, refuting the all-or-nothing
claim as stated. -/
theorem C8_cx_failed_write_leaves_created_file :
    (set worldC8 "FOO" "1").1 = .err ⟨.other, "write failed"⟩ ∧
    worldC8.fs.content ".zprofile" = none ∧
    (set worldC8 "FOO" "1").2.1.content ".zprofile" = some "" := by decide

/-- C8 (amended): each public operation either fully succeeds — the export
line is written and flushed onto the located file — or fails having
written the export line to no file (no `wrote` event); however, a failure
after acquisition can leave behind one newly created *empty* profile file
(creation by the locator is the only file-system change a failing run can
make), so the file system is not always byte-identical on failure. -/
theorem C8_all_or_nothing (w : World) (var value : String) :
    ((set w var value).1 = .ok () →
      ∃ name, (get_profile w).1 = .ok name ∧
        (set w var value).2.1.content name
          = some ((w.fs.content name).getD "" ++ setLine var value) ∧
        Event.wrote name (setLine var value) ∈ (set w var value).2.2) ∧
    (∀ e, (set w var value).1 = .err e →
      wroteEvents (set w var value).2.2 = [] ∧
      ∀ n, (set w var value).2.1.content n = w.fs.content n ∨
        (w.fs.content n = none ∧ (set w var value).2.1.content n = some "")) ∧
    (∀ m, (set w var value).1 = .panic m → (set w var value).2.1 = w.fs) ∧
    ((append w var value).1 = .ok () →
      ∃ name, (get_profile w).1 = .ok name ∧
        (append w var value).2.1.content name
          = some ((w.fs.content name).getD "" ++ appendLine var value) ∧
        Event.wrote name (appendLine var value) ∈ (append w var value).2.2) ∧
    (∀ e, (append w var value).1 = .err e →
      wroteEvents (append w var value).2.2 = [] ∧
      ∀ n, (append w var value).2.1.content n = w.fs.content n ∨
        (w.fs.content n = none ∧ (append w var value).2.1.content n = some "")) ∧
    (∀ m, (append w var value).1 = .panic m → (append w var value).2.1 = w.fs) ∧
    (∀ e, (check_or_set w var value).1 = .err e →
      wroteEvents (check_or_set w var value).2.2 = [] ∧
      ∀ n, (check_or_set w var value).2.1.content n = w.fs.content n ∨
        (w.fs.content n = none ∧ (check_or_set w var value).2.1.content n = some "")) ∧
    (∀ m, (check_or_set w var value).1 = .panic m →
      (check_or_set w var value).2.1 = w.fs) := by
  have hset_err : ∀ e, (set w var value).1 = .err e →
      wroteEvents (set w var value).2.2 = [] ∧
      ∀ n, (set w var value).2.1.content n = w.fs.content n ∨
        (w.fs.content n = none ∧ (set w var value).2.1.content n = some "") := by
    intro e he
    rw [set_eq_writeThrough] at he ⊢
    obtain ⟨hfs, hwr⟩ := writeThrough_err_spec w (setLine var value) e he
    exact ⟨hwr, hfs⟩
  have hset_panic : ∀ m, (set w var value).1 = .panic m →
      (set w var value).2.1 = w.fs := by
    intro m hm
    rw [set_eq_writeThrough] at hm ⊢
    exact (writeThrough_panic_spec w (setLine var value) m hm).1
  refine ⟨?_, hset_err, hset_panic, ?_, ?_, ?_, ?_, ?_⟩
  · intro h
    rw [set_eq_writeThrough] at h ⊢
    obtain ⟨name, hn, hcontent, _, hmem⟩ := writeThrough_ok_spec w (setLine var value) h
    exact ⟨name, hn, hcontent, hmem⟩
  · intro h
    rw [append_eq_writeThrough] at h ⊢
    obtain ⟨name, hn, hcontent, _, hmem⟩ := writeThrough_ok_spec w (appendLine var value) h
    exact ⟨name, hn, hcontent, hmem⟩
  · intro e he
    rw [append_eq_writeThrough] at he ⊢
    obtain ⟨hfs, hwr⟩ := writeThrough_err_spec w (appendLine var value) e he
    exact ⟨hwr, hfs⟩
  · intro m hm
    rw [append_eq_writeThrough] at hm ⊢
    exact (writeThrough_panic_spec w (appendLine var value) m hm).1
  · intro e he
    cases hev : lookupEnv w.env var with
    | some v₀ =>
      rw [check_or_set_present w var value v₀ hev] at he
      simp at he
    | none =>
      rw [check_or_set_absent w var value hev] at he ⊢
      exact ⟨(hset_err e he).1, (hset_err e he).2⟩
  · intro m hm
    cases hev : lookupEnv w.env var with
    | some v₀ =>
      rw [check_or_set_present w var value v₀ hev] at hm
      simp at hm
    | none =>
      rw [check_or_set_absent w var value hev] at hm ⊢
      exact hset_panic m hm

/-- C8 witness: the amended theorem applied at the failed-write world —
the failing `set` wrote the export line to no file (the `.zprofile` it
created on the way remains, empty). -/
theorem C8_all_or_nothing_witness :
    (set worldC8 "FOO" "1").1 = .err ⟨.other, "write failed"⟩ ∧
    (wroteEvents (set worldC8 "FOO" "1").2.2 = [] ∧
      ((set worldC8 "FOO" "1").2.1.content ".zprofile" = worldC8.fs.content ".zprofile" ∨
        (worldC8.fs.content ".zprofile" = none ∧
          (set worldC8 "FOO" "1").2.1.content ".zprofile" = some ""))) :=
  ⟨by decide,
    ⟨((C8_all_or_nothing worldC8 "FOO" "1").2.1 ⟨.other, "write failed"⟩ (by decide)).1,
      ((C8_all_or_nothing worldC8 "FOO" "1").2.1 ⟨.other, "write failed"⟩
        (by decide)).2 ".zprofile"⟩⟩

/-- C9: `set` is not idempotent.  On a file system with no doomed opens or
writes, if `set(var, value)` succeeds then running the identical `set`
again (on the resulting state) also succeeds, locates the same profile
file, and appends the very same `"\nexport var=value\n"` line a second
time: the final content carries the line twice.  There is no existence
check against the file content. -/
theorem C9_set_not_idempotent (w : World) (var value : String)
    (hopen : w.fs.openFail = []) (hwfail : w.fs.writeFail = [])
    (h1 : (set w var value).1 = .ok ()) :
    ∃ name,
      (get_profile w).1 = .ok name ∧
      (set ⟨w.shellVar, w.env, w.home, (set w var value).2.1⟩ var value).1 = .ok () ∧
      (set ⟨w.shellVar, w.env, w.home, (set w var value).2.1⟩ var value).2.1.content name
        = some ((w.fs.content name).getD "" ++ setLine var value ++ setLine var value) := by
  cases hg : get_profile w with
  | mk o pr =>
    obtain ⟨fs₁, tr₁⟩ := pr
    cases o with
    | err e => simp [set, hg] at h1
    | panic m => simp [set, hg] at h1
    | ok name =>
      cases hw : fs₁.write name (setLine var value) with
      | error e => simp [set, hg, hw] at h1
      | ok fs₂ =>
        obtain ⟨c, hc, hwf, hfs2⟩ := write_ok_elim fs₁ name (setLine var value) fs₂ hw
        obtain ⟨s, sb, sp, tr₀, hsv, hh1, hh2, hh3, hh4, hsb, hsp, htc⟩ :=
          get_profile_ok_elim w name fs₁ tr₁ hg
        have hcase := tryCandidates_ok w.fs name fs₁ sp.shell_cfg_files false tr₀ htc
        have hof : fs₁.openFail = w.fs.openFail := by
          rcases hcase with ⟨hfs1, _⟩ | ⟨_, hfs1⟩ <;> rw [hfs1]
        have hwfp : fs₁.writeFail = w.fs.writeFail := by
          rcases hcase with ⟨hfs1, _⟩ | ⟨_, hfs1⟩ <;> rw [hfs1]
        have hsetfs : (set w var value).2.1 = fs₂ := by simp [set, hg, hw]
        have hg2 : fs₂ = ⟨assocSet fs₁.files name (c ++ setLine var value),
            w.fs.openFail, w.fs.writeFail⟩ := by rw [hfs2, hof, hwfp]
        have hstab := tryCandidates_stable w.fs name (c ++ setLine var value) fs₁
          sp.shell_cfg_files hopen false tr₀ htc
        rw [← hg2] at hstab
        cases hrun : tryCandidates fs₂ false sp.shell_cfg_files with
        | mk o₂ pr₂ =>
          obtain ⟨fs₅, tr₅⟩ := pr₂
          rw [hrun] at hstab
          have hrun' : tryCandidates fs₂ false sp.shell_cfg_files
              = (.ok name, fs₂, tr₅) :=
            hrun.trans (by
              rw [show o₂ = Outcome.ok name from hstab.1,
                show fs₅ = fs₂ from hstab.2])
          have hgp2 := get_profile_build ⟨w.shellVar, w.env, w.home, fs₂⟩ s sb sp
            name fs₂ tr₅ hsv hh1 hh2 hh3 hh4 hsb hsp hrun'
          have hc₂ : assocFind fs₂.files name
              = some (c ++ setLine var value) := by
            rw [hg2]
            exact assocFind_assocSet_self _ _ _
          have hwf₂ : fs₂.writeFail = [] := by rw [hg2]; exact hwfail
          have hnm : name ∉ fs₂.writeFail := by rw [hwf₂]; simp
          have hw2 := write_ok_build fs₂ name (setLine var value)
            (c ++ setLine var value) hc₂ hnm
          have hcval : c = (w.fs.content name).getD "" := by
            rcases hcase with ⟨hfs1, c', hc', _⟩ | ⟨hnone, hfs1⟩
            · rw [hfs1] at hc
              have hx : w.fs.content name = some c := hc
              rw [hx]
              rfl
            · rw [hfs1] at hc
              simp only at hc
              rw [assocFind_append] at hc
              have hn : assocFind w.fs.files name = none := hnone
              rw [hn] at hc
              simp [assocFind] at hc
              rw [hnone]
              exact hc.symm
          rw [hsetfs]
          refine ⟨name, rfl, ?_, ?_⟩
          · simp [set, hgp2, hw2]
          · simp only [set, hgp2, hw2]
            have hfinal : Fs.content
                ⟨assocSet fs₂.files name ((c ++ setLine var value) ++ setLine var value),
                  fs₂.openFail, fs₂.writeFail⟩ name
                = some ((c ++ setLine var value) ++ setLine var value) :=
              assocFind_assocSet_self _ _ _
            rw [hfinal, hcval]

/-- C9 witness: on an empty home the first `set` creates `.zprofile` and
writes the line; the identical second `set` appends it again, yielding the
line twice. -/
theorem C9_set_not_idempotent_witness :
    (set worldC9 "FOO" "1").1 = .ok () ∧
    (∃ name,
      (get_profile worldC9).1 = .ok name ∧
      (set ⟨worldC9.shellVar, worldC9.env, worldC9.home, (set worldC9 "FOO" "1").2.1⟩
          "FOO" "1").1 = .ok () ∧
      (set ⟨worldC9.shellVar, worldC9.env, worldC9.home, (set worldC9 "FOO" "1").2.1⟩
          "FOO" "1").2.1.content name
        = some ((worldC9.fs.content name).getD "" ++ setLine "FOO" "1" ++ setLine "FOO" "1")) :=
  ⟨by decide, C9_set_not_idempotent worldC9 "FOO" "1" rfl rfl (by decide)⟩

end EnvPerm
